import Mathlib

/-!
Shallow embedding of the shared mutable dataset engine of the
RTGS-AI-Analyst repository and proofs about its specification.

The embedded code lives in
`agentic_ai_system/tools/data_tools.py` (dataset store, CSV loading,
sandboxed execution, transformation log),
`agentic_ai_system/tools/detect_outliers_tool.py` and
`agentic_ai_system/tools/trend_analysis_tool.py` (read-only consumers and
their module-level `current_dataset` bindings),
`analyst/tools/detect_outliers_tool.py` (z-score and IQR computations), and
`agentic_ai/tools/trend_analysis_tool.py` (trend aggregation, growth and
trend-direction labelling).

Machine floats are modelled by `ℚ`; timestamps and file contents are
threaded as explicit data.  Python exceptions of the pandas parsing and
evaluation calls are modelled by `Option`/outcome types.
-/

namespace RTGS

/-! ## String helpers

`containsSub hay needle` is Python's `needle in hay` substring test.
`lowerStr` models Python `str.lower()`; both lower-case ASCII letters
(Python additionally folds some non-ASCII letters, which none of the
deny-list tokens contain). -/

def containsSub (hay needle : String) : Bool :=
  (List.range (hay.data.length + 1)).any fun i => needle.data.isPrefixOf (hay.data.drop i)

/-- Python `str.lower()` (character-wise; the deny-list tokens are ASCII). -/
def lowerStr (s : String) : String := ⟨s.data.map Char.toLower⟩

/-- `os.path.basename`, restricted to `/`-separated paths. -/
def baseName (p : String) : String :=
  ((p.splitOn "/").getLast?).getD p

/-! ## Tables

`pd.DataFrame` is modelled as a header row plus a list of rows of string
cells (the engine's claims only ever inspect shape, row equality and
column names). -/

structure Table where
  header : List String
  rows : List (List String)
deriving DecidableEq

/-- `df.shape`: (number of rows, number of columns). -/
def Table.shape (t : Table) : Nat × Nat := (t.rows.length, t.header.length)

/-- `df.shape[1]`. -/
def Table.ncols (t : Table) : Nat := t.header.length

/-- Column-name cleaning applied by `ReadCSVTool._run`:
`.str.strip().str.replace('\n', ' ').str.replace('\r', ' ')`. -/
def cleanName (s : String) : String :=
  ((s.trim).replace "\n" " ").replace "\r" " "

def cleanColumns (t : Table) : Table :=
  { t with header := t.header.map cleanName }

/-- `dataset_metadata` as assembled by `ReadCSVTool._run`. -/
structure Metadata where
  filePath : String
  fileName : String
  loadedAt : String
  originalShape : Nat × Nat
deriving DecidableEq

/-! ## Engine state

`data_tools.py` keeps three module globals: `current_dataset`,
`dataset_metadata`, `transformation_log`.  The consumer modules
`detect_outliers_tool.py` and `trend_analysis_tool.py` each execute
`from .data_tools import current_dataset` at import time, which copies the
binding then current in `data_tools` (namely `None`) into their own module
namespace; their `global current_dataset` statements refer to those module
namespaces, so the copies are recorded as separate state fields.
`durableLog` is the line sequence appended to
`outputs/logs/transformation_log.md`, and `cleanedWrites` the sequence of
`to_csv` writes under `outputs/cleaned_data/`. -/

structure EngineState where
  dtCurrent : Option Table
  dtMetadata : Option Metadata
  transformationLog : List String
  durableLog : List String
  cleanedWrites : List (String × Table)
  detCurrent : Option Table
  trendCurrent : Option Table
deriving DecidableEq

/-- State right after package import: `current_dataset = None` in
`data_tools`, and the consumer modules copied that `None` binding. -/
def initState : EngineState :=
  { dtCurrent := none, dtMetadata := none, transformationLog := [],
    durableLog := [], cleanedWrites := [], detCurrent := none,
    trendCurrent := none }

/-- Results returned by engine calls (pretty-printed report strings are
represented by the data they are rendered from). -/
inductive CallResult where
  | loadOk (t : Table)
  | loadErr
  | notLoaded
  | blockedMsg (operation : String)
  | execErr (detail : String)
  | notDataFrame (detail : String)
  | execOk (operation : String) (before after : Nat × Nat) (savedTo : String)
  | logged (message : String)
  | reportFrom (snapshot : Table) (args : String)
deriving DecidableEq

/-! ## SafetyPolicy (`SafeExecuteTool._run`, data_tools.py lines 200-202) -/

def dangerousTerms : List String :=
  ["import", "exec", "eval", "__", "open", "file", "os.", "sys.", "subprocess"]

/-- `any(term in operation.lower() for term in dangerous_terms)`. -/
def blockedOp (operation : String) : Bool :=
  dangerousTerms.any fun t => containsSub (lowerStr operation) t

/-! ## CSV loading (`ReadCSVTool._run`, data_tools.py lines 31-79) -/

/-- The pandas parsing attempts available to a load call:
`readCsv e sep` models `pd.read_csv(file_path, encoding=e, sep=sep)`
(`none` = the call raised), `readCsvDefault` models `pd.read_csv(file_path)`. -/
structure LoadAttempt where
  readCsv : String → String → Option Table
  readCsvDefault : Option Table

def encodingList : List String := ["utf-8", "latin-1", "cp1252", "iso-8859-1"]

def separatorList : List String := [",", ";", "\t", "|"]

/-- The (encoding, separator) combinations in the order the nested loops
`for encoding in encodings: for sep in separators:` visit them. -/
def comboOrder : List (String × String) :=
  encodingList.flatMap fun e => separatorList.map fun sep => (e, sep)

/-- One iteration of the nested parse loop: once `dataset_loaded` is true
the remaining combinations are skipped (the double `break`); otherwise a
successful parse is assigned to `current_dataset` before its column count
is checked. -/
def scanStep (att : LoadAttempt) (acc : Option Table × Bool) (combo : String × String) :
    Option Table × Bool :=
  if acc.2 then acc
  else
    match att.readCsv combo.1 combo.2 with
    | none => acc
    | some t => (some t, decide (1 < t.ncols))

/-- The whole nested loop, starting from the pre-call `current_dataset`. -/
def scanCombos (att : LoadAttempt) (cur : Option Table) : Option Table × Bool :=
  comboOrder.foldl (scanStep att) (cur, false)

/-- Tail of the success path: metadata assembly and column cleaning
(`dataset_metadata = {...}` then `current_dataset.columns = ...`).  The
`none` case mirrors the `except` branch catching the `AttributeError`
that accessing `.shape` of `None` would raise. -/
def commitLoad (filePath now : String) (s : EngineState) : EngineState × CallResult :=
  match s.dtCurrent with
  | none => (s, CallResult.loadErr)
  | some t =>
      let md : Metadata :=
        { filePath := filePath, fileName := baseName filePath,
          loadedAt := now, originalShape := t.shape }
      let t' := cleanColumns t
      ({ s with dtCurrent := some t', dtMetadata := some md }, CallResult.loadOk t')

/-- `ReadCSVTool._run`: `transformation_log = []` precedes the `try`
block; then the nested parse loop runs; if no combination qualified the
default parse is attempted and any exception from it is caught by the
outer `except`, returning an error string with `current_dataset` holding
whatever the loop last assigned. -/
def loadRun (att : LoadAttempt) (filePath now : String) (s : EngineState) :
    EngineState × CallResult :=
  let s1 := { s with transformationLog := [] }
  let scanned := scanCombos att s1.dtCurrent
  let s2 := { s1 with dtCurrent := scanned.1 }
  if scanned.2 then
    commitLoad filePath now s2
  else
    match att.readCsvDefault with
    | none => (s2, CallResult.loadErr)
    | some t => commitLoad filePath now { s2 with dtCurrent := some t }

/-! ## Sandboxed execution (`SafeExecuteTool._run`, data_tools.py lines 193-249) -/

/-- Outcome of `eval(f"df.{operation}", safe_env)` on the working copy of
the current table: the evaluation raised, returned a non-DataFrame value,
or returned a DataFrame. -/
inductive EvalOutcome where
  | exc (detail : String)
  | nonFrame (detail : String)
  | frame (t : Table)

/-- `f"Applied: {operation} | Shape: {original_shape} -> {new_shape}"`. -/
def execLogEntry (operation : String) (before after : Nat × Nat) : String :=
  "Applied: " ++ operation ++ " | Shape: " ++ toString before ++ " -> " ++ toString after

def cleanedPath (saveName : String) : String :=
  "outputs/cleaned_data/" ++ saveName ++ ".csv"

/-- The branch of `SafeExecuteTool._run` after the safety check: evaluate
the operation on a copy of the table; only the DataFrame case commits a
new table, appends to the in-memory `transformation_log` and writes the
cleaned CSV. -/
def evalBranch (runOp : Table → EvalOutcome) (operation saveName : String)
    (df : Table) (s : EngineState) : EngineState × CallResult :=
  match runOp df with
  | EvalOutcome.exc d => (s, CallResult.execErr d)
  | EvalOutcome.nonFrame d => (s, CallResult.notDataFrame d)
  | EvalOutcome.frame t' =>
      ({ s with dtCurrent := some t',
                transformationLog :=
                  s.transformationLog ++ [execLogEntry operation df.shape t'.shape],
                cleanedWrites := s.cleanedWrites ++ [(cleanedPath saveName, t')] },
       CallResult.execOk operation df.shape t'.shape (cleanedPath saveName))

/-- `SafeExecuteTool._run`. -/
def safeExecuteRun (runOp : Table → EvalOutcome) (operation saveName : String)
    (s : EngineState) : EngineState × CallResult :=
  match s.dtCurrent with
  | none => (s, CallResult.notLoaded)
  | some df =>
      if blockedOp operation then (s, CallResult.blockedMsg operation)
      else evalBranch runOp operation saveName df s

/-! ## Transformation log (`LogTransformationTool._run`, data_tools.py lines 426-439) -/

/-- `f"**{timestamp}:** {message}"`. -/
def ledgerLine (timestamp message : String) : String :=
  "**" ++ timestamp ++ ":** " ++ message

/-- Appends the entry to the in-memory list and a `- `-prefixed line to
the durable markdown log. -/
def logTransformationRun (timestamp message : String) (s : EngineState) :
    EngineState × CallResult :=
  let e := ledgerLine timestamp message
  ({ s with transformationLog := s.transformationLog ++ [e],
            durableLog := s.durableLog ++ ["- " ++ e] },
   CallResult.logged message)

/-! ## Read-only consumers (agentic_ai_system copies)

`DetectOutliersTool._run` and `TrendAnalysisTool._run` read the
`current_dataset` binding of their own module (populated once, at import
time, by `from .data_tools import current_dataset`) and return
`"ERROR: No dataset loaded."` when it is `None`; otherwise a report
computed purely from that snapshot (rendering elided: the result records
which snapshot was consulted). -/

def detectOutliersRun (columnName : String) (s : EngineState) :
    EngineState × CallResult :=
  match s.detCurrent with
  | none => (s, CallResult.notLoaded)
  | some df => (s, CallResult.reportFrom df columnName)

def trendAnalysisRun (dateColumn valueColumn frequency : String) (s : EngineState) :
    EngineState × CallResult :=
  match s.trendCurrent with
  | none => (s, CallResult.notLoaded)
  | some df =>
      (s, CallResult.reportFrom df (dateColumn ++ "," ++ valueColumn ++ "," ++ frequency))

/-! ## Engine call sequences -/

inductive EngineCall where
  | load (att : LoadAttempt) (filePath now : String)
  | safeExec (runOp : Table → EvalOutcome) (operation saveName : String)
  | logStep (timestamp message : String)
  | detect (columnName : String)
  | trend (dateColumn valueColumn frequency : String)

def EngineCall.isLoad : EngineCall → Bool
  | EngineCall.load _ _ _ => true
  | _ => false

def stepCall (c : EngineCall) (s : EngineState) : EngineState × CallResult :=
  match c with
  | EngineCall.load att fp now => loadRun att fp now s
  | EngineCall.safeExec runOp op sn => safeExecuteRun runOp op sn s
  | EngineCall.logStep ts m => logTransformationRun ts m s
  | EngineCall.detect col => detectOutliersRun col s
  | EngineCall.trend dc vc f => trendAnalysisRun dc vc f s

def runCalls (s : EngineState) : List EngineCall → EngineState
  | [] => s
  | c :: cs => runCalls (stepCall c s).1 cs

/-! ## Row deduplication (`df.drop_duplicates()`)

pandas `drop_duplicates` with its default `keep='first'` keeps the first
occurrence of every full row tuple. -/

def dedupKeepFirst {α : Type} [DecidableEq α] : List α → List α → List α
  | _, [] => []
  | seen, x :: xs =>
      if x ∈ seen then dedupKeepFirst seen xs
      else x :: dedupKeepFirst (x :: seen) xs

def Table.dropDuplicates (t : Table) : Table :=
  { t with rows := dedupKeepFirst [] t.rows }

/-- `eval("df.drop_duplicates()")` inside the sandbox returns a DataFrame. -/
def dropDuplicatesOp : Table → EvalOutcome :=
  fun t => EvalOutcome.frame t.dropDuplicates

/-! ## Outlier detection (`analyst/tools/detect_outliers_tool.py`)

The tool validates the column, drops missing values and then works on the
resulting numeric series, modelled as a `List ℚ`.  `series.mean()` and
`series.std()` use pandas' sample statistics (`ddof=1`). -/

def listMean (xs : List ℚ) : ℚ := xs.sum / xs.length

/-- Sample variance `series.std() ** 2` (denominator `n - 1`; for `n ≤ 1`
pandas yields `NaN`, and Lean's division by zero yields `0`: in both
cases the z-score comparison below flags nothing). -/
def listVarSample (xs : List ℚ) : ℚ :=
  (xs.map fun v => (v - listMean xs) ^ 2).sum / ((xs.length : ℚ) - 1)

/-- The flag `np.abs((series - series.mean()) / series.std()) > 3` of a
single value, rendered square-root-free over `ℚ`: for `std > 0`,
`|v - mean| / std > 3 ↔ (v - mean)² > 9 · var`; for `std = 0` (or the
`n ≤ 1` `NaN` case) the float comparison against `NaN` is `False`, matched
here by requiring `var > 0`. -/
def zscoreFlag (xs : List ℚ) (v : ℚ) : Bool :=
  decide (0 < listVarSample xs ∧ 9 * listVarSample xs < (v - listMean xs) ^ 2)

/-- `series[z_scores > 3]` (detect_outliers_tool.py lines 49-50). -/
def zscoreOutliers (xs : List ℚ) : List ℚ :=
  xs.filter (zscoreFlag xs)

/-- Insertion step of an ascending sort. -/
def insertAsc (x : ℚ) : List ℚ → List ℚ
  | [] => [x]
  | y :: ys => if x ≤ y then x :: y :: ys else y :: insertAsc x ys

def sortAsc (xs : List ℚ) : List ℚ := xs.foldr insertAsc []

/-- Linear interpolation along the order statistics: at position
`pos ∈ [0, n-1]`, the value `s[⌊pos⌋] + (pos - ⌊pos⌋)·(s[⌊pos⌋+1] - s[⌊pos⌋])`,
written as a walk so the floor index is consumed one step at a time. -/
def interpAt : List ℚ → ℚ → ℚ
  | [], _ => 0
  | [x], _ => x
  | x :: y :: ys, pos => if pos < 1 then x + pos * (y - x) else interpAt (y :: ys) (pos - 1)

/-- `series.quantile(q)` with pandas' default linear interpolation:
position `q·(n-1)` between the sorted values. -/
def quantile (xs : List ℚ) (q : ℚ) : ℚ :=
  interpAt (sortAsc xs) (q * ((xs.length : ℚ) - 1))

/-- `Q1 - 1.5 * IQR` (detect_outliers_tool.py lines 67-70). -/
def iqrLowerBound (xs : List ℚ) : ℚ :=
  quantile xs (1/4) - 3/2 * (quantile xs (3/4) - quantile xs (1/4))

/-- `Q3 + 1.5 * IQR` (detect_outliers_tool.py line 71). -/
def iqrUpperBound (xs : List ℚ) : ℚ :=
  quantile xs (3/4) + 3/2 * (quantile xs (3/4) - quantile xs (1/4))

/-- `series[(series < lower_bound) | (series > upper_bound)]`. -/
def iqrOutliers (xs : List ℚ) : List ℚ :=
  xs.filter fun v => decide (v < iqrLowerBound xs) || decide (iqrUpperBound xs < v)

/-! ## Trend analysis (`agentic_ai/tools/trend_analysis_tool.py`)

Rows are the two projected columns after the library coercions
`pd.to_datetime(..., errors='coerce')` and
`pd.to_numeric(..., errors='coerce')`: an optional calendar date and an
optional numeric value (`none` = coerced to missing). -/

structure SimpleDate where
  y : ℕ
  m : ℕ
  d : ℕ
deriving DecidableEq

/-- `dt.to_period(freq)`: a period key, encoded as a `ℕ` triple so that
lexicographic order is calendar order (`M` → (year, month, 0),
`Q` → (year, quarter, 0), `Y` → (year, 0, 0), `D` → (year, month, day)). -/
def toPeriod (frequency : String) (dt : SimpleDate) : ℕ × ℕ × ℕ :=
  if frequency = "D" then (dt.y, dt.m, dt.d)
  else if frequency = "M" then (dt.y, dt.m, 0)
  else if frequency = "Q" then (dt.y, (dt.m - 1) / 3 + 1, 0)
  else (dt.y, 0, 0)

def periodLe (p q : ℕ × ℕ × ℕ) : Bool :=
  decide (p.1 < q.1) ||
    (decide (p.1 = q.1) &&
      (decide (p.2.1 < q.2.1) ||
        (decide (p.2.1 = q.2.1) && decide (p.2.2 ≤ q.2.2))))

def insertPeriod (x : ℕ × ℕ × ℕ) : List (ℕ × ℕ × ℕ) → List (ℕ × ℕ × ℕ)
  | [] => [x]
  | y :: ys => if periodLe x y then x :: y :: ys else y :: insertPeriod x ys

/-- `groupby` sorts its group keys ascending. -/
def sortPeriods (ps : List (ℕ × ℕ × ℕ)) : List (ℕ × ℕ × ℕ) :=
  ps.foldr insertPeriod []

/-- `.round(2)` of pandas/numpy: round half to even at two decimals
(ties other than exact binary representation effects). -/
def roundHalfEven (x : ℚ) : ℤ :=
  let f := Int.floor x
  let r := x - f
  if r < 1/2 then f
  else if 1/2 < r then f + 1
  else if f % 2 = 0 then f else f + 1

def round2 (x : ℚ) : ℚ := (roundHalfEven (x * 100) : ℚ) / 100

/-- Trend direction thresholds (trend_analysis_tool.py lines 124-133). -/
def trendDirectionLabel (g : ℚ) : String :=
  if 10 < g then "Strong Upward Trend"
  else if 2 < g then "Moderate Upward Trend"
  else if g < -10 then "Strong Downward Trend"
  else if g < -2 then "Moderate Downward Trend"
  else "Stable/Flat Trend"

/-- The parts of the report the specification speaks about: the per-period
sums in ascending period order, and, when at least 3 periods exist, the
overall first-to-last growth and its qualitative label. -/
structure TrendReport where
  periodSums : List ((ℕ × ℕ × ℕ) × ℚ)
  overallGrowth : Option ℚ
  trendDirection : Option String
deriving DecidableEq

/-- `TrendAnalysisTool._run` after column validation: drop rows whose
date failed to parse, then rows whose value failed numeric coercion
(erroring when either drop empties the frame), validate the frequency,
bucket by period, sum per period (grouped sums are rounded to 2 decimals
by `.round(2)`), and when at least 3 periods exist compute
`((last - first) / first) * 100` over the per-period sums together with
its direction label. -/
def trendAnalyze (rows : List (Option SimpleDate × Option ℚ)) (frequency : String) :
    Except String TrendReport :=
  let rows1 := rows.filterMap fun r =>
    match r.1 with
    | none => none
    | some dt => some (dt, r.2)
  if rows1.isEmpty then Except.error "No valid dates found"
  else
    let rows2 := rows1.filterMap fun r =>
      match r.2 with
      | none => none
      | some v => some (r.1, v)
    if rows2.isEmpty then Except.error "No valid numeric values found"
    else if ¬ (frequency = "D" ∨ frequency = "M" ∨ frequency = "Q" ∨ frequency = "Y") then
      Except.error "Invalid frequency"
    else
      let keyed := rows2.map fun r => (toPeriod frequency r.1, r.2)
      let keys := sortPeriods (dedupKeepFirst [] (keyed.map Prod.fst))
      let sums := keys.map fun k =>
        (k, round2 ((keyed.filter fun r => decide (r.1 = k)).map Prod.snd).sum)
      if sums.isEmpty then Except.error "No data available after grouping"
      else if 3 ≤ sums.length then
        let firstSum := ((sums.map Prod.snd).headD 0)
        let lastSum := ((sums.map Prod.snd).getLastD 0)
        let g := (lastSum - firstSum) / firstSum * 100
        Except.ok { periodSums := sums, overallGrowth := some g,
                    trendDirection := some (trendDirectionLabel g) }
      else
        Except.ok { periodSums := sums, overallGrowth := none,
                    trendDirection := none }

/-! ## Helper lemmas about the parse loop -/

/-- The first (encoding, separator) combination in `combos` order whose
parse yields more than one column. -/
def firstQualifying (att : LoadAttempt) (combos : List (String × String)) : Option Table :=
  combos.findSome? fun c =>
    match att.readCsv c.1 c.2 with
    | some t => if 1 < t.ncols then some t else none
    | none => none

/-- The table the loop variable holds after visiting all of `combos`
without a qualifying parse: the last successfully parsed table, else the
starting value. -/
def lastParsed (att : LoadAttempt) (combos : List (String × String))
    (cur : Option Table) : Option Table :=
  combos.foldl (fun acc c =>
    match att.readCsv c.1 c.2 with
    | none => acc
    | some t => some t) cur

theorem foldl_scanStep_stop (att : LoadAttempt) (combos : List (String × String))
    (acc : Option Table × Bool) (h : acc.2 = true) :
    combos.foldl (scanStep att) acc = acc := by
  induction combos with
  | nil => rfl
  | cons c cs ih =>
      rw [List.foldl_cons]
      have hs : scanStep att acc c = acc := by simp [scanStep, h]
      rw [hs]
      exact ih

theorem foldl_scanStep_none (att : LoadAttempt) :
    ∀ (combos : List (String × String)) (cur : Option Table),
      firstQualifying att combos = none →
      combos.foldl (scanStep att) (cur, false) = (lastParsed att combos cur, false) := by
  intro combos
  induction combos with
  | nil => intro cur _; rfl
  | cons c cs ih =>
      intro cur h
      unfold firstQualifying at h
      rw [List.findSome?_cons] at h
      rw [List.foldl_cons]
      cases hc : att.readCsv c.1 c.2 with
      | none =>
          simp only [hc] at h
          have hstep : scanStep att (cur, false) c = (cur, false) := by
            simp [scanStep, hc]
          rw [hstep]
          have hlast : lastParsed att (c :: cs) cur = lastParsed att cs cur := by
            simp [lastParsed, hc]
          rw [hlast]
          exact ih cur h
      | some u =>
          by_cases hq : 1 < u.ncols
          · simp [hc, hq] at h
          · simp only [hc, if_neg hq] at h
            have hstep : scanStep att (cur, false) c = (some u, false) := by
              simp [scanStep, hc, hq]
            rw [hstep]
            have hlast : lastParsed att (c :: cs) cur = lastParsed att cs (some u) := by
              simp [lastParsed, hc]
            rw [hlast]
            exact ih (some u) h

theorem foldl_scanStep_some (att : LoadAttempt) :
    ∀ (combos : List (String × String)) (cur : Option Table) (t : Table),
      firstQualifying att combos = some t →
      combos.foldl (scanStep att) (cur, false) = (some t, true) := by
  intro combos
  induction combos with
  | nil => intro cur t h; simp [firstQualifying] at h
  | cons c cs ih =>
      intro cur t h
      unfold firstQualifying at h
      rw [List.findSome?_cons] at h
      rw [List.foldl_cons]
      cases hc : att.readCsv c.1 c.2 with
      | none =>
          simp only [hc] at h
          have hstep : scanStep att (cur, false) c = (cur, false) := by
            simp [scanStep, hc]
          rw [hstep]
          exact ih cur t h
      | some u =>
          by_cases hq : 1 < u.ncols
          · have ht : u = t := by simpa [hc, hq] using h
            have hstep : scanStep att (cur, false) c = (some u, true) := by
              simp [scanStep, hc, hq]
            rw [hstep, ht]
            exact foldl_scanStep_stop att cs (some t, true) rfl
          · simp only [hc, if_neg hq] at h
            have hstep : scanStep att (cur, false) c = (some u, false) := by
              simp [scanStep, hc, hq]
            rw [hstep]
            exact ih (some u) t h

theorem commitLoad_some (fp now : String) (s : EngineState) (t : Table)
    (h : s.dtCurrent = some t) :
    commitLoad fp now s =
      ({ s with dtCurrent := some (cleanColumns t),
                dtMetadata := some { filePath := fp, fileName := baseName fp,
                                     loadedAt := now, originalShape := t.shape } },
       CallResult.loadOk (cleanColumns t)) := by
  unfold commitLoad
  rw [h]

theorem loadRun_of_firstQualifying (att : LoadAttempt) (fp now : String)
    (s : EngineState) (t : Table) (h : firstQualifying att comboOrder = some t) :
    loadRun att fp now s =
      commitLoad fp now { s with transformationLog := [], dtCurrent := some t } := by
  unfold loadRun scanCombos
  dsimp only
  rw [foldl_scanStep_some att comboOrder _ t h]
  simp

theorem loadRun_of_noQualifying (att : LoadAttempt) (fp now : String)
    (s : EngineState) (h : firstQualifying att comboOrder = none) :
    loadRun att fp now s =
      match att.readCsvDefault with
      | none =>
          ({ s with transformationLog := [],
                    dtCurrent := lastParsed att comboOrder s.dtCurrent },
           CallResult.loadErr)
      | some t =>
          commitLoad fp now { s with transformationLog := [], dtCurrent := some t } := by
  unfold loadRun scanCombos
  dsimp only
  rw [foldl_scanStep_none att comboOrder _ h]
  cases att.readCsvDefault <;> simp

/-! ## Helper lemmas about state fields -/

theorem commitLoad_fields (fp now : String) (s : EngineState) :
    (commitLoad fp now s).1.transformationLog = s.transformationLog ∧
    (commitLoad fp now s).1.durableLog = s.durableLog ∧
    (commitLoad fp now s).1.detCurrent = s.detCurrent ∧
    (commitLoad fp now s).1.trendCurrent = s.trendCurrent := by
  unfold commitLoad
  cases s.dtCurrent <;> simp

theorem loadRun_fields (att : LoadAttempt) (fp now : String) (s : EngineState) :
    (loadRun att fp now s).1.transformationLog = [] ∧
    (loadRun att fp now s).1.durableLog = s.durableLog ∧
    (loadRun att fp now s).1.detCurrent = s.detCurrent ∧
    (loadRun att fp now s).1.trendCurrent = s.trendCurrent := by
  unfold loadRun
  dsimp only
  cases hs : (scanCombos att s.dtCurrent).2
  · simp only [hs, Bool.false_eq_true, if_false]
    cases att.readCsvDefault with
    | none => simp
    | some t =>
        have h := commitLoad_fields fp now
          { s with transformationLog := [], dtCurrent := some t }
        simpa using h
  · simp only [hs, if_true]
    have h := commitLoad_fields fp now
      { s with transformationLog := [], dtCurrent := (scanCombos att s.dtCurrent).1 }
    simpa using h

theorem detectOutliersRun_state (col : String) (s : EngineState) :
    (detectOutliersRun col s).1 = s := by
  unfold detectOutliersRun
  cases s.detCurrent <;> rfl

theorem trendAnalysisRun_state (dc vc f : String) (s : EngineState) :
    (trendAnalysisRun dc vc f s).1 = s := by
  unfold trendAnalysisRun
  cases s.trendCurrent <;> rfl

theorem stepCall_consumers (c : EngineCall) (s : EngineState) :
    (stepCall c s).1.detCurrent = s.detCurrent ∧
    (stepCall c s).1.trendCurrent = s.trendCurrent := by
  cases c with
  | load att fp now => exact ⟨(loadRun_fields att fp now s).2.2.1, (loadRun_fields att fp now s).2.2.2⟩
  | safeExec runOp op sn =>
      unfold stepCall safeExecuteRun
      cases s.dtCurrent with
      | none => exact ⟨rfl, rfl⟩
      | some df =>
          by_cases hb : blockedOp op
          · simp [hb]
          · simp only [hb, if_false, Bool.false_eq_true]
            unfold evalBranch
            cases runOp df <;> simp
  | logStep ts m => unfold stepCall logTransformationRun; exact ⟨rfl, rfl⟩
  | detect col =>
      unfold stepCall
      rw [detectOutliersRun_state]
      exact ⟨rfl, rfl⟩
  | trend dc vc f =>
      unfold stepCall
      rw [trendAnalysisRun_state]
      exact ⟨rfl, rfl⟩

theorem runCalls_consumers (cs : List EngineCall) :
    ∀ s : EngineState, (runCalls s cs).detCurrent = s.detCurrent ∧
      (runCalls s cs).trendCurrent = s.trendCurrent := by
  induction cs with
  | nil => intro s; exact ⟨rfl, rfl⟩
  | cons c cs ih =>
      intro s
      have h1 := stepCall_consumers c s
      have h2 := ih (stepCall c s).1
      exact ⟨h2.1.trans h1.1, h2.2.trans h1.2⟩

/-! ## Deduplication idempotence -/

theorem dedupKeepFirst_idem {α : Type} [DecidableEq α] (l : List α) :
    ∀ seen : List α, dedupKeepFirst seen (dedupKeepFirst seen l) = dedupKeepFirst seen l := by
  induction l with
  | nil => intro seen; rfl
  | cons x xs ih =>
      intro seen
      by_cases hx : x ∈ seen
      · simp only [dedupKeepFirst, if_pos hx]
        exact ih seen
      · simp only [dedupKeepFirst, if_neg hx]
        exact congrArg (x :: ·) (ih (x :: seen))

theorem dropDuplicates_idem (t : Table) :
    t.dropDuplicates.dropDuplicates = t.dropDuplicates := by
  unfold Table.dropDuplicates
  simp [dedupKeepFirst_idem]

/-! ## Helper lemmas about the sandbox -/

theorem safeExecuteRun_blocked (runOp : Table → EvalOutcome) (op sn : String)
    (s : EngineState) (df : Table) (hl : s.dtCurrent = some df)
    (hb : blockedOp op = true) :
    safeExecuteRun runOp op sn s = (s, CallResult.blockedMsg op) := by
  unfold safeExecuteRun
  rw [hl]
  simp [hb]

theorem safeExecuteRun_notBlocked (runOp : Table → EvalOutcome) (op sn : String)
    (s : EngineState) (df : Table) (hl : s.dtCurrent = some df)
    (hb : blockedOp op = false) :
    safeExecuteRun runOp op sn s = evalBranch runOp op sn df s := by
  unfold safeExecuteRun
  rw [hl]
  simp [hb]

theorem safeExecuteRun_frame (runOp : Table → EvalOutcome) (op sn : String)
    (s : EngineState) (df t' : Table) (hl : s.dtCurrent = some df)
    (hb : blockedOp op = false) (hf : runOp df = EvalOutcome.frame t') :
    safeExecuteRun runOp op sn s =
      ({ s with dtCurrent := some t',
                transformationLog :=
                  s.transformationLog ++ [execLogEntry op df.shape t'.shape],
                cleanedWrites := s.cleanedWrites ++ [(cleanedPath sn, t')] },
       CallResult.execOk op df.shape t'.shape (cleanedPath sn)) := by
  rw [safeExecuteRun_notBlocked runOp op sn s df hl hb]
  unfold evalBranch
  rw [hf]

/-! ## Shared fixtures for concrete instantiations -/

/-- A loaded two-column table with a duplicated row. -/
def exTable : Table := { header := ["a", "b"], rows := [["1", "2"], ["1", "2"]] }

/-- An engine state in which a load has succeeded. -/
def exLoadedState : EngineState := { initState with dtCurrent := some exTable }

/-! ## Claim theorems -/

/-- C2: for every loaded store and permitted expression, if evaluating the
expression raises or returns a non-table value, the call returns the
error result carrying the failure detail and the whole engine state —
current table, metadata, in-memory and durable logs, cleaned-data
writes — is exactly what it was before the call. -/
theorem sandboxErrorAtomicity (s : EngineState) (df : Table)
    (runOp : Table → EvalOutcome) (op sn detail : String)
    (hl : s.dtCurrent = some df) (hsafe : blockedOp op = false)
    (hfail : runOp df = EvalOutcome.exc detail ∨ runOp df = EvalOutcome.nonFrame detail) :
    (safeExecuteRun runOp op sn s).1 = s ∧
    ((safeExecuteRun runOp op sn s).2 = CallResult.execErr detail ∨
     (safeExecuteRun runOp op sn s).2 = CallResult.notDataFrame detail) := by
  rw [safeExecuteRun_notBlocked runOp op sn s df hl hsafe]
  unfold evalBranch
  rcases hfail with h | h
  · rw [h]
    exact ⟨rfl, Or.inl rfl⟩
  · rw [h]
    exact ⟨rfl, Or.inr rfl⟩

/-- C2 witness at a concrete loaded state and failing evaluation. -/
theorem sandboxErrorAtomicity_witness :
    (safeExecuteRun (fun _ => EvalOutcome.exc "bad column") "dropna()" "x" exLoadedState).1 =
      exLoadedState ∧
    ((safeExecuteRun (fun _ => EvalOutcome.exc "bad column") "dropna()" "x" exLoadedState).2 =
        CallResult.execErr "bad column" ∨
     (safeExecuteRun (fun _ => EvalOutcome.exc "bad column") "dropna()" "x" exLoadedState).2 =
        CallResult.notDataFrame "bad column") :=
  sandboxErrorAtomicity exLoadedState exTable (fun _ => EvalOutcome.exc "bad column")
    "dropna()" "x" "bad column" rfl (by decide) (Or.inl rfl)

/-- C3: on a loaded store, an expression is rejected iff its lower-cased
text contains one of the fixed deny-list tokens as a substring; a rejected
expression is never evaluated (the call's outcome does not depend on the
evaluation function) and the state is unchanged, while an expression with
no banned substring always reaches the evaluation branch. -/
theorem safetySubstringFilter (s : EngineState) (df : Table)
    (runOp : Table → EvalOutcome) (op sn : String) (hl : s.dtCurrent = some df) :
    (blockedOp op = true ↔ ∃ t ∈ dangerousTerms, containsSub (lowerStr op) t = true) ∧
    ((safeExecuteRun runOp op sn s).2 = CallResult.blockedMsg op ↔ blockedOp op = true) ∧
    (blockedOp op = true →
      ∀ runOp2 : Table → EvalOutcome,
        safeExecuteRun runOp2 op sn s = (s, CallResult.blockedMsg op)) ∧
    (blockedOp op = false → safeExecuteRun runOp op sn s = evalBranch runOp op sn df s) := by
  refine ⟨?_, ?_, ?_, ?_⟩
  · unfold blockedOp
    exact List.any_eq_true
  · cases hb : blockedOp op
    · rw [safeExecuteRun_notBlocked runOp op sn s df hl hb]
      unfold evalBranch
      cases runOp df <;> simp
    · rw [safeExecuteRun_blocked runOp op sn s df hl hb]
      simp
  · intro hb runOp2
    exact safeExecuteRun_blocked runOp2 op sn s df hl hb
  · intro hb
    exact safeExecuteRun_notBlocked runOp op sn s df hl hb

/-- C3 witness at a concrete loaded state and a safe operation text. -/
theorem safetySubstringFilter_witness :
    (blockedOp "dropna()" = true ↔
        ∃ t ∈ dangerousTerms, containsSub (lowerStr "dropna()") t = true) ∧
    ((safeExecuteRun (fun _ => EvalOutcome.frame exTable) "dropna()" "y" exLoadedState).2 =
        CallResult.blockedMsg "dropna()" ↔ blockedOp "dropna()" = true) ∧
    (blockedOp "dropna()" = true →
      ∀ runOp2 : Table → EvalOutcome,
        safeExecuteRun runOp2 "dropna()" "y" exLoadedState =
          (exLoadedState, CallResult.blockedMsg "dropna()")) ∧
    (blockedOp "dropna()" = false →
      safeExecuteRun (fun _ => EvalOutcome.frame exTable) "dropna()" "y" exLoadedState =
        evalBranch (fun _ => EvalOutcome.frame exTable) "dropna()" "y" exTable exLoadedState) :=
  safetySubstringFilter exLoadedState exTable (fun _ => EvalOutcome.frame exTable)
    "dropna()" "y" rfl

/-- C7: for every numeric column whose non-missing values are all equal,
the z-score method flags no outliers: the division by the zero standard
deviation never causes a value to be flagged (and the total function
completes without a fault). -/
theorem zscoreConstantColumn (xs : List ℚ) (c : ℚ) (hne : xs ≠ [])
    (hall : ∀ v ∈ xs, v = c) : zscoreOutliers xs = [] := by
  have hn : (xs.length : ℚ) ≠ 0 := by
    exact_mod_cast Nat.pos_iff_ne_zero.mp (List.length_pos.mpr hne)
  have hmean : listMean xs = c := by
    unfold listMean
    rw [List.sum_eq_card_nsmul xs c hall, nsmul_eq_mul]
    field_simp
  have hvar : listVarSample xs = 0 := by
    unfold listVarSample
    have hzero : (xs.map fun v => (v - listMean xs) ^ 2).sum = 0 := by
      apply List.sum_eq_zero
      intro x hx
      simp only [List.mem_map] at hx
      obtain ⟨v, hv, rfl⟩ := hx
      rw [hall v hv, hmean]
      ring
    rw [hzero, zero_div]
  unfold zscoreOutliers
  rw [List.filter_eq_nil_iff]
  intro a _
  simp [zscoreFlag, hvar]

/-- C7 witness: a constant column of three values yields no z-score
outliers. -/
theorem zscoreConstantColumn_witness : zscoreOutliers [5, 5, 5] = [] :=
  zscoreConstantColumn [5, 5, 5] 5 (by decide) (by decide)

/-- C8: a value is flagged by the IQR method iff it lies strictly below
Q1 − 1.5·IQR or strictly above Q3 + 1.5·IQR (Q1, Q3 the 25th and 75th
percentiles), and on the column [1, 2, 3, 4, 100] the method flags exactly
the value 100. -/
theorem iqrMethodCorrect :
    (∀ (xs : List ℚ) (v : ℚ),
        v ∈ iqrOutliers xs ↔
          v ∈ xs ∧ (v < iqrLowerBound xs ∨ iqrUpperBound xs < v)) ∧
    iqrOutliers [1, 2, 3, 4, 100] = [100] := by
  constructor
  · intro xs v
    unfold iqrOutliers
    rw [List.mem_filter]
    simp
  · norm_num [iqrOutliers, iqrLowerBound, iqrUpperBound, quantile, sortAsc, insertAsc,
      interpAt, List.filter]

/-- C10: on any loaded store, running the deduplicate transformation twice
through the sandbox leaves the store at the result of the first run: the
second application removes zero rows and commits an equal table. -/
theorem deduplicateIdempotent (s : EngineState) (df : Table)
    (hl : s.dtCurrent = some df) :
    ((safeExecuteRun dropDuplicatesOp "drop_duplicates()" "cleaned" s).1.dtCurrent =
        some df.dropDuplicates) ∧
    ((safeExecuteRun dropDuplicatesOp "drop_duplicates()" "cleaned"
        (safeExecuteRun dropDuplicatesOp "drop_duplicates()" "cleaned" s).1).1.dtCurrent =
        some df.dropDuplicates) ∧
    df.dropDuplicates.dropDuplicates.shape = df.dropDuplicates.shape := by
  have hb : blockedOp "drop_duplicates()" = false := by decide
  have h1 := safeExecuteRun_frame dropDuplicatesOp "drop_duplicates()" "cleaned" s df
    df.dropDuplicates hl hb rfl
  have hcur1 : (safeExecuteRun dropDuplicatesOp "drop_duplicates()" "cleaned" s).1.dtCurrent =
      some df.dropDuplicates := by rw [h1]
  have h2 := safeExecuteRun_frame dropDuplicatesOp "drop_duplicates()" "cleaned"
    (safeExecuteRun dropDuplicatesOp "drop_duplicates()" "cleaned" s).1 df.dropDuplicates
    df.dropDuplicates.dropDuplicates hcur1 hb rfl
  refine ⟨hcur1, ?_, by rw [dropDuplicates_idem]⟩
  rw [h2, dropDuplicates_idem]

/-- C10 witness at a concrete loaded state with a duplicated row. -/
theorem deduplicateIdempotent_witness :
    ((safeExecuteRun dropDuplicatesOp "drop_duplicates()" "cleaned" exLoadedState).1.dtCurrent =
        some exTable.dropDuplicates) ∧
    ((safeExecuteRun dropDuplicatesOp "drop_duplicates()" "cleaned"
        (safeExecuteRun dropDuplicatesOp "drop_duplicates()" "cleaned" exLoadedState).1).1.dtCurrent =
        some exTable.dropDuplicates) ∧
    exTable.dropDuplicates.dropDuplicates.shape = exTable.dropDuplicates.shape :=
  deduplicateIdempotent exLoadedState exTable rfl

/-! ## Fixtures for the load claims -/

/-- A parse model for which every combination succeeds with the example
table (so the very first qualifies). -/
def loadedAttempt : LoadAttempt :=
  { readCsv := fun _ _ => some exTable, readCsvDefault := some exTable }

/-- A parse model for which every attempt, the default included, raises. -/
def failAttempt : LoadAttempt :=
  { readCsv := fun _ _ => none, readCsvDefault := none }

/-- A store state after a load and one logged transformation. -/
def priorState : EngineState :=
  { dtCurrent := some exTable,
    dtMetadata := some { filePath := "data/birth_data.csv", fileName := "birth_data.csv",
                         loadedAt := "t0", originalShape := (2, 2) },
    transformationLog := [ledgerLine "t1" "dropped nulls"],
    durableLog := [], cleanedWrites := [], detCurrent := none, trendCurrent := none }

/-- C1: after package import the consumer modules' `current_dataset`
bindings are `None` and no engine call ever rebinds them, so even after a
successful load the outlier-detection and trend-analysis calls answer
"No dataset loaded" instead of reading the loaded snapshot. -/
theorem snapshotFreshnessBug :
    (∀ cs : List EngineCall, (runCalls initState cs).detCurrent = none ∧
        (runCalls initState cs).trendCurrent = none) ∧
    (stepCall (EngineCall.load loadedAttempt "data/birth_data.csv" "t0") initState).2 =
      CallResult.loadOk (cleanColumns exTable) ∧
    (detectOutliersRun "a"
        (stepCall (EngineCall.load loadedAttempt "data/birth_data.csv" "t0") initState).1).2 =
      CallResult.notLoaded ∧
    (trendAnalysisRun "a" "b" "M"
        (stepCall (EngineCall.load loadedAttempt "data/birth_data.csv" "t0") initState).1).2 =
      CallResult.notLoaded := by
  exact ⟨fun cs => runCalls_consumers cs initState, rfl, rfl, rfl⟩

/-- C4 counterexample: with every parse attempt raising, the load call
returns the error result with the current table and metadata unchanged,
but the ledger-visible in-memory history has been reset to empty, so the
store is not exactly what it was before the call. -/
theorem loadFailureAtomicity_counterexample :
    (loadRun failAttempt "missing.csv" "t2" priorState).2 = CallResult.loadErr ∧
    priorState.transformationLog = [ledgerLine "t1" "dropped nulls"] ∧
    (loadRun failAttempt "missing.csv" "t2" priorState).1.transformationLog = [] ∧
    (loadRun failAttempt "missing.csv" "t2" priorState).1.transformationLog ≠
      priorState.transformationLog := by
  refine ⟨rfl, rfl, rfl, ?_⟩
  intro h
  exact absurd h (by decide)

/-- C4 amended: when no (encoding, delimiter) combination yields a table
with more than one column and the default parse raises, load returns the
error result and leaves the current table at the last intermediate parse
(the pre-call table if every attempt raised) and the metadata unchanged,
but the in-memory transformation log is unconditionally reset to empty at
the start of the call. -/
theorem loadFailureAtomicity_amended (att : LoadAttempt) (fp now : String)
    (s : EngineState) (hscan : firstQualifying att comboOrder = none)
    (hdef : att.readCsvDefault = none) :
    loadRun att fp now s =
      ({ s with transformationLog := [],
                dtCurrent := lastParsed att comboOrder s.dtCurrent },
       CallResult.loadErr) := by
  rw [loadRun_of_noQualifying att fp now s hscan, hdef]

/-- C4 amended witness at the concrete failing fixture. -/
theorem loadFailureAtomicity_amended_witness :
    loadRun failAttempt "missing.csv" "t2" priorState =
      ({ priorState with
          transformationLog := [],
          dtCurrent := lastParsed failAttempt comboOrder priorState.dtCurrent },
       CallResult.loadErr) :=
  loadFailureAtomicity_amended failAttempt "missing.csv" "t2" priorState rfl rfl

/-- C5 counterexample: an accepted transformation appends its record only
to the in-memory list (the durable log is untouched at that moment), and a
subsequent load resets the in-memory history to empty, removing the
previously recorded entry. -/
theorem ledgerDurability_counterexample :
    (safeExecuteRun dropDuplicatesOp "drop_duplicates()" "c5" exLoadedState).1.transformationLog =
      [execLogEntry "drop_duplicates()" (2, 2) (1, 2)] ∧
    (safeExecuteRun dropDuplicatesOp "drop_duplicates()" "c5" exLoadedState).1.durableLog =
      exLoadedState.durableLog ∧
    (loadRun loadedAttempt "again.csv" "t3"
        (safeExecuteRun dropDuplicatesOp "drop_duplicates()" "c5" exLoadedState).1).1.transformationLog =
      [] := by
  have h1 := safeExecuteRun_frame dropDuplicatesOp "drop_duplicates()" "c5" exLoadedState
    exTable exTable.dropDuplicates rfl (by decide) rfl
  refine ⟨?_, ?_, ?_⟩
  · rw [h1]
    rfl
  · rw [h1]
  · exact (loadRun_fields loadedAttempt "again.csv" "t3" _).1

/-- C5 amended: each accepted transformation's record is appended, at the
moment it is recorded, to the in-memory transformation log only (the
durable log is written solely by the explicit log-transformation call);
no engine call other than a load ever mutates, reorders or removes
previously recorded entries, but a load resets the in-memory log to
empty. -/
theorem ledgerAppendOnly_amended :
    (∀ (att : LoadAttempt) (fp now : String) (s : EngineState),
        (loadRun att fp now s).1.transformationLog = []) ∧
    (∀ (c : EngineCall) (s : EngineState), c.isLoad = false →
        s.transformationLog <+: (stepCall c s).1.transformationLog) ∧
    (∀ (runOp : Table → EvalOutcome) (op sn : String) (s : EngineState) (df t' : Table),
        s.dtCurrent = some df → blockedOp op = false → runOp df = EvalOutcome.frame t' →
        (safeExecuteRun runOp op sn s).1.transformationLog =
          s.transformationLog ++ [execLogEntry op df.shape t'.shape] ∧
        (safeExecuteRun runOp op sn s).1.durableLog = s.durableLog) ∧
    (∀ (ts m : String) (s : EngineState),
        (logTransformationRun ts m s).1.transformationLog =
          s.transformationLog ++ [ledgerLine ts m] ∧
        (logTransformationRun ts m s).1.durableLog =
          s.durableLog ++ ["- " ++ ledgerLine ts m]) := by
  refine ⟨?_, ?_, ?_, ?_⟩
  · intro att fp now s
    exact (loadRun_fields att fp now s).1
  · intro c s hc
    cases c with
    | load att fp now => simp [EngineCall.isLoad] at hc
    | safeExec runOp op sn =>
        unfold stepCall safeExecuteRun
        cases hl : s.dtCurrent with
        | none => exact List.prefix_rfl
        | some df =>
            by_cases hb : blockedOp op
            · simp only [hb, if_true]
              exact List.prefix_rfl
            · simp only [hb, Bool.false_eq_true, if_false]
              unfold evalBranch
              cases runOp df with
              | exc d => exact List.prefix_rfl
              | nonFrame d => exact List.prefix_rfl
              | frame t' => exact List.prefix_append _ _
    | logStep ts m =>
        unfold stepCall logTransformationRun
        exact List.prefix_append _ _
    | detect col =>
        unfold stepCall
        rw [detectOutliersRun_state]
    | trend dc vc f =>
        unfold stepCall
        rw [trendAnalysisRun_state]
  · intro runOp op sn s df t' hl hb hf
    rw [safeExecuteRun_frame runOp op sn s df t' hl hb hf]
    exact ⟨rfl, rfl⟩
  · intro ts m s
    exact ⟨rfl, rfl⟩

/-- C5 amended witness: a log call extends the in-memory history of the
loaded fixture state. -/
theorem ledgerAppendOnly_amended_witness :
    exLoadedState.transformationLog <+:
      (stepCall (EngineCall.logStep "t4" "note") exLoadedState).1.transformationLog :=
  ledgerAppendOnly_amended.2.1 (EngineCall.logStep "t4" "note") exLoadedState rfl

/-! ## Fixtures for the search-order claim -/

/-- The delimiter-major search order described by the specification: for
each delimiter in comma, semicolon, tab, pipe order, the encodings in
priority order.  (This definition follows the spec's words, for
comparison with the source's `comboOrder`.) -/
def specComboOrder : List (String × String) :=
  separatorList.flatMap fun sep => encodingList.map fun e => (e, sep)

def tableA : Table := { header := ["x", "y"], rows := [["pipe", "pipe"]] }

def tableB : Table := { header := ["x", "y"], rows := [["comma", "comma"]] }

/-- A parse model in which exactly (utf-8, pipe) and (latin-1, comma)
succeed, with distinct two-column tables. -/
def crossAttempt : LoadAttempt :=
  { readCsv := fun e sep =>
      if e = "utf-8" ∧ sep = "|" then some tableA
      else if e = "latin-1" ∧ sep = "," then some tableB
      else none,
    readCsvDefault := none }

/-- C6 counterexample: the loop is encoding-major, not delimiter-major:
with qualifying parses at (utf-8, pipe) and (latin-1, comma), load commits
the (utf-8, pipe) table, while the first qualifying combination in the
claimed delimiter-major order would be (latin-1, comma) with a different
table. -/
theorem loadSearchOrder_counterexample :
    (loadRun crossAttempt "f.csv" "t0" initState).1.dtCurrent = some (cleanColumns tableA) ∧
    firstQualifying crossAttempt comboOrder = some tableA ∧
    firstQualifying crossAttempt specComboOrder = some tableB ∧
    cleanColumns tableA ≠ tableB := by
  refine ⟨?_, rfl, rfl, ?_⟩
  · have hq : firstQualifying crossAttempt comboOrder = some tableA := rfl
    rw [loadRun_of_firstQualifying crossAttempt "f.csv" "t0" initState tableA hq]
    rw [commitLoad_some "f.csv" "t0" _ tableA rfl]
  · intro h
    have hrows := congrArg Table.rows h
    exact absurd (show tableA.rows = tableB.rows from hrows) (by decide)

/-- C6 amended: load tries, for each encoding in UTF-8, Latin-1, CP1252,
ISO-8859-1 order, the delimiters comma, semicolon, tab, pipe in that
order, commits the first combination whose parse yields more than one
column, and only when no combination qualifies attempts the single
default parse last. -/
theorem loadSearchOrder_amended (att : LoadAttempt) (fp now : String) (s : EngineState) :
    (∀ t : Table, firstQualifying att comboOrder = some t →
        (loadRun att fp now s).1.dtCurrent = some (cleanColumns t) ∧
        (loadRun att fp now s).2 = CallResult.loadOk (cleanColumns t)) ∧
    (firstQualifying att comboOrder = none →
        (∀ t : Table, att.readCsvDefault = some t →
            (loadRun att fp now s).1.dtCurrent = some (cleanColumns t) ∧
            (loadRun att fp now s).2 = CallResult.loadOk (cleanColumns t)) ∧
        (att.readCsvDefault = none →
            (loadRun att fp now s).2 = CallResult.loadErr)) := by
  constructor
  · intro t hq
    rw [loadRun_of_firstQualifying att fp now s t hq]
    rw [commitLoad_some fp now _ t rfl]
    exact ⟨rfl, rfl⟩
  · intro hq
    constructor
    · intro t hd
      rw [loadRun_of_noQualifying att fp now s hq, hd]
      dsimp only
      rw [commitLoad_some fp now _ t rfl]
      exact ⟨rfl, rfl⟩
    · intro hd
      rw [loadRun_of_noQualifying att fp now s hq, hd]

/-- C6 amended witness at the concrete two-table fixture. -/
theorem loadSearchOrder_amended_witness :
    (loadRun crossAttempt "f.csv" "t0" initState).1.dtCurrent = some (cleanColumns tableA) ∧
    (loadRun crossAttempt "f.csv" "t0" initState).2 = CallResult.loadOk (cleanColumns tableA) :=
  (loadSearchOrder_amended crossAttempt "f.csv" "t0" initState).1 tableA rfl

/-! ## The trend reference input -/

def refTrendRows : List (Option SimpleDate × Option ℚ) :=
  [(some ⟨2023, 1, 15⟩, some 10), (some ⟨2023, 2, 10⟩, some 20), (some ⟨2023, 3, 5⟩, some 15)]

theorem toPeriod_monthly (dt : SimpleDate) : toPeriod "M" dt = (dt.y, dt.m, 0) := rfl

/-- C9: on dates 2023-01-15, 2023-02-10, 2023-03-05 with values 10, 20, 15
at monthly frequency, the per-period sums are 2023-01 ↦ 10,
2023-02 ↦ 20, 2023-03 ↦ 15, the overall growth is 50 and the label is
"Strong Upward Trend"; in general the label is the fixed threshold
classification of the overall growth. -/
theorem trendReferenceAnalysis :
    trendAnalyze refTrendRows "M" =
      Except.ok { periodSums := [((2023, 1, 0), 10), ((2023, 2, 0), 20), ((2023, 3, 0), 15)],
                  overallGrowth := some 50,
                  trendDirection := some "Strong Upward Trend" } ∧
    (∀ g : ℚ,
      (trendDirectionLabel g = "Strong Upward Trend" ↔ 10 < g) ∧
      (trendDirectionLabel g = "Moderate Upward Trend" ↔ 2 < g ∧ g ≤ 10) ∧
      (trendDirectionLabel g = "Strong Downward Trend" ↔ g < -10) ∧
      (trendDirectionLabel g = "Moderate Downward Trend" ↔ -10 ≤ g ∧ g < -2) ∧
      (trendDirectionLabel g = "Stable/Flat Trend" ↔ -2 ≤ g ∧ g ≤ 2)) := by
  constructor
  · norm_num [trendAnalyze, refTrendRows, toPeriod_monthly, sortPeriods, insertPeriod,
      periodLe, dedupKeepFirst, round2, roundHalfEven, trendDirectionLabel,
      List.filterMap, List.filter]
  · intro g
    unfold trendDirectionLabel
    split_ifs with h1 h2 h3 h4 <;>
      refine ⟨?_, ?_, ?_, ?_, ?_⟩ <;>
      constructor <;>
      intro h <;>
      first
        | rfl
        | exact absurd h (by decide)
        | linarith
        | exact ⟨by linarith, by linarith⟩

/-- C9 witness: the label of a 50 percent growth. -/
theorem trendReferenceAnalysis_witness : trendDirectionLabel 50 = "Strong Upward Trend" :=
  ((trendReferenceAnalysis.2 50).1).mpr (by norm_num)

end RTGS
